import Mathlib

/-
  Verification development for assimp's texture-transform post-processing
  helper (code/PostProcessing/TextureTransform.h).

  Shallow embedding conventions:
  * C++ `float` values are modelled as exact rationals (ℚ); the tolerance
    comparisons under study are plain order comparisons, which the rational
    model reflects faithfully.
  * `std::fabs` is modelled as the absolute value on ℚ.
  * `std::cos` / `std::sin` are external library primitives; the embedding
    takes them as function parameters `cosf sinf : ℚ → ℚ`, so every theorem
    holds for any interpretation of the two primitives.
  * unsigned int is modelled as Nat (no arithmetic near 2^32 occurs here);
    the two sentinel constants keep their literal values.
  * raw pointers (the material shortcut and material pointer of
    TTUpdateInfo) are modelled as optional identifiers.
-/

/-- Two-dimensional vector of the scene scalar type (aiVector2D). -/
structure aiVector2D where
  x : ℚ
  y : ℚ
deriving DecidableEq, Repr

/-- Texture mapping (wrap) mode, from assimp's material.h (not part of the
source slice; only the enumeration of values is needed). -/
inductive aiTextureMapMode where
  | Wrap
  | Clamp
  | Decal
  | Mirror
deriving DecidableEq, Repr

/-- Base transform data of a texture slot (aiUVTransform from material.h):
translation, scaling and rotation of the UV coordinate set. -/
structure aiUVTransform where
  mTranslation : aiVector2D
  mScaling : aiVector2D
  mRotation : ℚ
deriving DecidableEq, Repr

/-- Modelled from the spec: the defaults of aiUVTransform's constructor
(material.h is outside the source slice); spec §3 gives scale default (1,1),
rotation default 0, translation default (0,0). -/
def aiUVTransform.mkDefault : aiUVTransform :=
  { mTranslation := ⟨0, 0⟩, mScaling := ⟨1, 1⟩, mRotation := 0 }

/-- Shortcut into the material list (TTUpdateInfo).  The two raw pointers
(`directShortcut`, `mat`) are modelled as optional identifiers. -/
structure TTUpdateInfo where
  directShortcut : Option Nat
  mat : Option Nat
  semantic : Nat
  index : Nat
deriving DecidableEq, Repr

/-- Default member initializers of TTUpdateInfo (nullptr, nullptr, 0, 0). -/
def TTUpdateInfo.mkDefault : TTUpdateInfo :=
  { directShortcut := none, mat := none, semantic := 0, index := 0 }

/-- Sentinel AI_TT_UV_IDX_LOCK_TBD: destination channel still to be determined. -/
def AI_TT_UV_IDX_LOCK_TBD : Nat := 0xffffffff

/-- Sentinel AI_TT_UV_IDX_LOCK_NONE: no locked destination channel (the default). -/
def AI_TT_UV_IDX_LOCK_NONE : Nat := 0xeeeeeeee

/-- Macro AI_DEG_TO_RAD: degree-to-radian conversion macro from assimp's
defs.h (outside the source slice): multiplication by the literal
0.0174532925 (written as an explicit fraction, since rational
multiplication and scientific literals are kernel-irreducible). -/
def AI_DEG_TO_RAD (x : ℚ) : ℚ := x * mkRat 174532925 10000000000

/-- Constant AI_TT_ROTATION_EPSILON, defined as `(float)AI_DEG_TO_RAD(0.5)`: the rotation
tolerance used by the identity test: half a degree in radians,
0.5 * 0.0174532925 = 0.00872664625, given as an explicit fraction so the
kernel can evaluate comparisons against it. -/
def AI_TT_ROTATION_EPSILON : ℚ := mkRat 872664625 100000000000

/-- Helper class representing a texture coordinate transformation
(STransformVecInfo), carrying the base aiUVTransform data plus the source
channel, wrap modes, lock state and the shortcut list. -/
structure STransformVecInfo extends aiUVTransform where
  uvIndex : Nat
  mapU : aiTextureMapMode
  mapV : aiTextureMapMode
  lockedPos : Nat
  updateList : List TTUpdateInfo
deriving DecidableEq, Repr

/-- Default-constructed STransformVecInfo: base transform defaults plus the
member initializers of the struct (uvIndex 0, both wrap modes Wrap, lock
state NONE, empty update list). -/
def STransformVecInfo.mkDefault : STransformVecInfo :=
  { aiUVTransform.mkDefault with
    uvIndex := 0
    mapU := aiTextureMapMode.Wrap
    mapV := aiTextureMapMode.Wrap
    lockedPos := AI_TT_UV_IDX_LOCK_NONE
    updateList := [] }

/-- The local `const static float epsilon = 0.05f` of operator==, written
as the explicit fraction 5/100 so the kernel can evaluate comparisons. -/
def ttEpsilon : ℚ := mkRat 5 100

/-- Translation of `STransformVecInfo::operator==`: early-return chain comparing the
translation, scaling and rotation components against the 0.05 epsilon. -/
def STransformVecInfo.beq (self other : STransformVecInfo) : Bool :=
  if |self.mTranslation.x - other.mTranslation.x| > ttEpsilon ∨
      |self.mTranslation.y - other.mTranslation.y| > ttEpsilon then
    false
  else if |self.mScaling.x - other.mScaling.x| > ttEpsilon ∨
      |self.mScaling.y - other.mScaling.y| > ttEpsilon then
    false
  else if |self.mRotation - other.mRotation| > ttEpsilon then
    false
  else
    true

/-- Translation of `STransformVecInfo::operator!=`. -/
def STransformVecInfo.bne (self other : STransformVecInfo) : Bool :=
  !(self.beq other)

/-- Translation of `STransformVecInfo::IsUntransformed`: scaling equal to (1,1), both
translation components zero (C++ `!x` on a float tests x == 0), and the
(signed) rotation below AI_TT_ROTATION_EPSILON. -/
def STransformVecInfo.IsUntransformed (self : STransformVecInfo) : Bool :=
  decide (1 = self.mScaling.x) && decide (1 = self.mScaling.y) &&
  decide (self.mTranslation.x = 0) && decide (self.mTranslation.y = 0) &&
  decide (self.mRotation < AI_TT_ROTATION_EPSILON)

/-- Matrix (3x3) of the scene scalar type (aiMatrix3x3), row-major fields. -/
structure aiMatrix3x3 where
  a1 : ℚ
  a2 : ℚ
  a3 : ℚ
  b1 : ℚ
  b2 : ℚ
  b3 : ℚ
  c1 : ℚ
  c2 : ℚ
  c3 : ℚ
deriving DecidableEq, Repr

/-- The default aiMatrix3x3 constructor yields the identity matrix. -/
def aiMatrix3x3.mkDefault : aiMatrix3x3 :=
  ⟨1, 0, 0, 0, 1, 0, 0, 0, 1⟩

/-- Modelled from the spec: aiMatrix3x3 multiplication (matrix3x3.inl is
outside the source slice); §4.4 composes by "successive right-multiplications
starting from identity", so `mOut *= m` is `mOut = mOut.mul m` with the
standard row-by-column product. -/
def aiMatrix3x3.mul (m n : aiMatrix3x3) : aiMatrix3x3 :=
  ⟨m.a1 * n.a1 + m.a2 * n.b1 + m.a3 * n.c1,
   m.a1 * n.a2 + m.a2 * n.b2 + m.a3 * n.c2,
   m.a1 * n.a3 + m.a2 * n.b3 + m.a3 * n.c3,
   m.b1 * n.a1 + m.b2 * n.b1 + m.b3 * n.c1,
   m.b1 * n.a2 + m.b2 * n.b2 + m.b3 * n.c2,
   m.b1 * n.a3 + m.b2 * n.b3 + m.b3 * n.c3,
   m.c1 * n.a1 + m.c2 * n.b1 + m.c3 * n.c1,
   m.c1 * n.a2 + m.c2 * n.b2 + m.c3 * n.c2,
   m.c1 * n.a3 + m.c2 * n.b3 + m.c3 * n.c3⟩

/-- Translation of `STransformVecInfo::GetMatrix`: start from the identity; overwrite with
a pure scale matrix when the scaling differs from (1,1); right-multiply a
rotation matrix when the rotation is non-zero; right-multiply a translation
matrix when a translation component is non-zero.  The external `std::cos`
and `std::sin` are taken as parameters. -/
def STransformVecInfo.GetMatrix (cosf sinf : ℚ → ℚ)
    (self : STransformVecInfo) : aiMatrix3x3 :=
  let mOut := aiMatrix3x3.mkDefault
  let mOut := if self.mScaling.x ≠ 1 ∨ self.mScaling.y ≠ 1 then
      { aiMatrix3x3.mkDefault with a1 := self.mScaling.x, b2 := self.mScaling.y }
    else mOut
  let mOut := if self.mRotation ≠ 0 then
      mOut.mul { aiMatrix3x3.mkDefault with
        a1 := cosf self.mRotation
        b2 := cosf self.mRotation
        a2 := -(sinf self.mRotation)
        b1 := sinf self.mRotation }
    else mOut
  let mOut := if self.mTranslation.x ≠ 0 ∨ self.mTranslation.y ≠ 0 then
      mOut.mul { aiMatrix3x3.mkDefault with
        a3 := self.mTranslation.x
        b3 := self.mTranslation.y }
    else mOut
  mOut

/-! ### Concrete descriptors used by counterexamples and witnesses -/

/-- A descriptor with default transform components on a chosen source
coordinate channel. -/
def infoOnChannel (ch : Nat) : STransformVecInfo :=
  { STransformVecInfo.mkDefault with uvIndex := ch }

/-- A descriptor with default components except for the rotation. -/
def infoRot (r : ℚ) : STransformVecInfo :=
  { STransformVecInfo.mkDefault with mRotation := r }

/-- A descriptor with default components except for the translation. -/
def infoTrans (tx ty : ℚ) : STransformVecInfo :=
  { STransformVecInfo.mkDefault with mTranslation := ⟨tx, ty⟩ }

/-- Concrete descriptor for the C5 witness: scale (2,3), rotation 1,
translation (4,5). -/
def infoC5 : STransformVecInfo :=
  { STransformVecInfo.mkDefault with
    mScaling := ⟨2, 3⟩, mRotation := 1, mTranslation := ⟨4, 5⟩ }

/-! ### Spec-modelled Execute pipeline (C4)

TextureTransformStep::Execute lives in TextureTransform.cpp, which is not
part of the source slice (the header declares it at line 181).  The
five-phase pipeline below is modelled from spec §2 and §4: collect one
descriptor per texture slot, cluster descriptors that share a source
channel and compare equal under operator==, allocate destination channels
(identity clusters reuse their source channel, the others draw fresh
indices from a counter seeded above the highest populated channel), build
one matrix per assigned cluster, and patch every slot's channel reference
to its cluster's destination. -/

/-- Modelled from the spec: one texture slot of the material set — its
declared coordinate channel and its stored UV transform (§4.1). -/
structure Slot where
  channel : Nat
  uvt : aiUVTransform
deriving DecidableEq, Repr

/-- Modelled from the spec: the scene state touched by the pass — the
texture slots, the set of coordinate channel indices populated with data,
and the matrix stored per destination channel (§3, §6). -/
structure Scene where
  slots : List Slot
  populated : List Nat
  matrices : List (Nat × aiMatrix3x3)
deriving DecidableEq, Repr

/-- Modelled from the spec: a transform descriptor — source channel plus
transform components (§3); the shortcut back to its slot is kept
positionally (the n-th descriptor belongs to the n-th slot). -/
structure Descriptor where
  channel : Nat
  uvt : aiUVTransform
deriving DecidableEq, Repr

/-- The descriptor of a slot (§4.1: one descriptor per slot). -/
def Slot.toDesc (sl : Slot) : Descriptor :=
  ⟨sl.channel, sl.uvt⟩

/-- Wrap a bare transform into an STransformVecInfo with default
non-transform fields, to apply the header's member functions to it. -/
def toInfo (u : aiUVTransform) : STransformVecInfo :=
  ⟨u, 0, aiTextureMapMode.Wrap, aiTextureMapMode.Wrap, AI_TT_UV_IDX_LOCK_NONE, []⟩

/-- Identity classification of a descriptor: the header's
IsUntransformed applied to its transform (§4.3). -/
def Descriptor.isId (d : Descriptor) : Bool :=
  (toInfo d.uvt).IsUntransformed

/-- Modelled from the spec: the merger's match test — same source channel
and transform equality under the header's operator== (§4.2). -/
def descMatch (d r : Descriptor) : Bool :=
  decide (d.channel = r.channel) && (toInfo d.uvt).beq (toInfo r.uvt)

/-- Position of the first cluster representative matching a descriptor
(§4.2: linear scan of the representative list, first match wins). -/
def findCluster (d : Descriptor) : List Descriptor → Option Nat
  | [] => none
  | r :: rs =>
    if descMatch d r = true then some 0
    else Option.map (fun n => n + 1) (findCluster d rs)

/-- Modelled from the spec: the clustering fold (§4.2).  Given the
accumulated representative list and the remaining descriptors, return the
final representative list together with, for each processed descriptor,
the index of the cluster it joined (a matching descriptor contributes only
its shortcut; a non-matching one is appended as a new representative). -/
def mergeGo : List Descriptor → List Descriptor → List Descriptor × List Nat
  | reprs, [] => (reprs, [])
  | reprs, d :: rest =>
    match findCluster d reprs with
    | some j => ((mergeGo reprs rest).1, j :: (mergeGo reprs rest).2)
    | none => ((mergeGo (reprs ++ [d]) rest).1,
               reprs.length :: (mergeGo (reprs ++ [d]) rest).2)

/-- Modelled from the spec: destination channel per cluster, in cluster
order (§4.3): an identity representative reuses its source channel; any
other cluster draws the next value of the monotonically increasing
counter. -/
def destListGo (counter : Nat) : List Descriptor → List Nat
  | [] => []
  | r :: rs =>
    if r.isId = true then r.channel :: destListGo counter rs
    else counter :: destListGo (counter + 1) rs

/-- Modelled from the spec: the matrices stored per destination channel
(§4.4, §4.5): one composed matrix for every non-identity cluster, keyed by
its assigned destination channel. -/
def matricesGo (cosf sinf : ℚ → ℚ) (counter : Nat) :
    List Descriptor → List (Nat × aiMatrix3x3)
  | [] => []
  | r :: rs =>
    if r.isId = true then matricesGo cosf sinf counter rs
    else (counter, (toInfo r.uvt).GetMatrix cosf sinf) ::
      matricesGo cosf sinf (counter + 1) rs

/-- Modelled from the spec: the patcher (§4.5) — rewrite each slot's
channel reference to the destination of the cluster recorded for it (the
n-th assignment entry belongs to the n-th slot). -/
def patchSlots (destF : Nat → Nat) : List Slot → List Nat → List Slot
  | sls, [] => sls
  | [], _ :: _ => []
  | sl :: sls, j :: js => { sl with channel := destF j } :: patchSlots destF sls js

/-- Highest populated coordinate channel index (0 when none). -/
def maxPopulated (l : List Nat) : Nat :=
  l.foldr max 0

/-- Modelled from the spec: TextureTransformStep::Execute (§2, §4, §6) —
the full collect → merge → allocate → build → patch pass over one scene,
parameterized by the external cos/sin primitives. -/
def Execute (cosf sinf : ℚ → ℚ) (s : Scene) : Scene :=
  let ds := s.slots.map Slot.toDesc
  let m := mergeGo [] ds
  let seed := maxPopulated s.populated + 1
  let dests := destListGo seed m.1
  { slots := patchSlots (fun j => dests.getD j 0) s.slots m.2
    populated := s.populated
    matrices := matricesGo cosf sinf seed m.1 }

/-- A bare transform with default components except for the rotation. -/
def uvtRot (r : ℚ) : aiUVTransform :=
  { aiUVTransform.mkDefault with mRotation := r }

/-- Concrete interpretation of the external cosine used by witnesses. -/
def cosW : ℚ → ℚ := fun _ => 0

/-- Concrete interpretation of the external sine used by witnesses. -/
def sinW : ℚ → ℚ := fun _ => 1

/-- Malformed scene for the C4 counterexample: its first and third slots
reference channel 1, which carries no coordinate data (only channel 0 is
populated), so the fresh destination allocated for the second slot aliases
channel 1 and the third slot's near-identity rotation merges differently
on a second run. -/
def sceneBad : Scene :=
  { slots := [⟨1, uvtRot 0⟩, ⟨0, uvtRot (mkRat 4 100)⟩, ⟨1, uvtRot (mkRat 8 100)⟩]
    populated := [0]
    matrices := [] }

/-- Well-formed scene for the C4 witness: both slots reference the
populated channel 0; one carries a pure 2x scale, the other the identity. -/
def sceneW : Scene :=
  { slots := [⟨0, { aiUVTransform.mkDefault with mScaling := ⟨2, 2⟩ }⟩, ⟨0, uvtRot 0⟩]
    populated := [0]
    matrices := [] }

/-! ### List helpers -/

/-- Default descriptor for positional access. -/
def ddesc : Descriptor := ⟨0, aiUVTransform.mkDefault⟩

/-! ### Retargeted descriptors: the shape of a second collection pass -/

/-- Representative list as it reappears on a second pass: each cluster
representative keeps its transform but now carries the destination channel
of its cluster position. -/
def imageFrom (destF : Nat → Nat) : Nat → List Descriptor → List Descriptor
  | _, [] => []
  | k, r :: rs => ⟨destF k, r.uvt⟩ :: imageFrom destF (k + 1) rs

/-- Descriptor list as it reappears on a second pass: each descriptor
keeps its transform but now carries the destination channel of the cluster
it joined. -/
def retarget (destF : Nat → Nat) : List Descriptor → List Nat → List Descriptor
  | ds, [] => ds
  | [], _ :: _ => []
  | d :: ds, j :: js => ⟨destF j, d.uvt⟩ :: retarget destF ds js

/-- Destination selection as a function of the cluster position. -/
def execDestF (seed : Nat) (reprs : List Descriptor) : Nat → Nat :=
  fun j => (destListGo seed reprs).getD j 0

/-! ## Theorems -/

/-- The literal value of AI_TT_ROTATION_EPSILON agrees with
AI_DEG_TO_RAD applied to 0.5. -/
theorem AI_TT_ROTATION_EPSILON_eq_deg :
    AI_TT_ROTATION_EPSILON = AI_DEG_TO_RAD (mkRat 1 2) := by
  norm_num [AI_TT_ROTATION_EPSILON, AI_DEG_TO_RAD, Rat.mkRat_eq_divInt]

/-- The comparison epsilon of operator== is one twentieth (0.05). -/
theorem ttEpsilon_eq : ttEpsilon = 1 / 20 := by
  norm_num [ttEpsilon, Rat.mkRat_eq_divInt]

/-! ### Claims about operator== (C1, C3, C7, C8) -/

/-- Claim C1, counterexample.  Two descriptors that differ only in their
source coordinate channel (uvIndex 0 versus 1) still compare equal under
STransformVecInfo::operator==: the claim that the equality test reports
descriptors with different uvIndex as not equal fails at this input. -/
theorem c1_counterexample :
    (infoOnChannel 0).uvIndex ≠ (infoOnChannel 1).uvIndex ∧
    (infoOnChannel 0).beq (infoOnChannel 1) = true := by
  refine ⟨by decide, ?_⟩
  unfold STransformVecInfo.beq
  norm_num [infoOnChannel, STransformVecInfo.mkDefault, aiUVTransform.mkDefault,
    ttEpsilon, Rat.mkRat_eq_divInt]

/-- Claim C1, amended.  STransformVecInfo::operator== does not inspect
uvIndex at all: replacing the uvIndex of either argument by arbitrary
values never changes its result.  (The same-source-channel requirement for
clustering is a separate precondition, not part of operator==.) -/
theorem c1_beq_ignores_uvIndex (a b : STransformVecInfo) (i j : Nat) :
    ({ a with uvIndex := i }).beq { b with uvIndex := j } = a.beq b := rfl

/-- Claim C3, counterexample.  A pair of descriptors whose translation.x
difference equals the 0.05 tolerance exactly *does* compare equal
(the code rejects only differences strictly greater than the tolerance),
contradicting the claim that equality holds exactly when all five
component differences are strictly below 0.05. -/
theorem c3_counterexample :
    ¬ (STransformVecInfo.mkDefault.beq (infoTrans (mkRat 5 100) 0) = true ↔
        (|STransformVecInfo.mkDefault.mTranslation.x -
            (infoTrans (mkRat 5 100) 0).mTranslation.x| < mkRat 5 100 ∧
         |STransformVecInfo.mkDefault.mTranslation.y -
            (infoTrans (mkRat 5 100) 0).mTranslation.y| < mkRat 5 100 ∧
         |STransformVecInfo.mkDefault.mScaling.x -
            (infoTrans (mkRat 5 100) 0).mScaling.x| < mkRat 5 100 ∧
         |STransformVecInfo.mkDefault.mScaling.y -
            (infoTrans (mkRat 5 100) 0).mScaling.y| < mkRat 5 100 ∧
         |STransformVecInfo.mkDefault.mRotation -
            (infoTrans (mkRat 5 100) 0).mRotation| < mkRat 5 100)) := by
  intro h
  have hbeq : STransformVecInfo.mkDefault.beq (infoTrans (mkRat 5 100) 0) = true := by
    unfold STransformVecInfo.beq
    norm_num [infoTrans, STransformVecInfo.mkDefault, aiUVTransform.mkDefault,
      ttEpsilon, Rat.mkRat_eq_divInt, abs_le]
  have hx := (h.mp hbeq).1
  norm_num [infoTrans, STransformVecInfo.mkDefault, aiUVTransform.mkDefault,
    Rat.mkRat_eq_divInt, abs_lt] at hx

/-- Claim C3, amended.  STransformVecInfo::operator== returns true exactly
when all five component-wise differences — translation.x, translation.y,
scale.x, scale.y, rotation — are at most (≤, not strictly below) the fixed
tolerance 0.05; a difference exactly equal to the tolerance still compares
equal. -/
theorem c3_beq_iff_le (a b : STransformVecInfo) :
    a.beq b = true ↔
      (|a.mTranslation.x - b.mTranslation.x| ≤ ttEpsilon ∧
       |a.mTranslation.y - b.mTranslation.y| ≤ ttEpsilon ∧
       |a.mScaling.x - b.mScaling.x| ≤ ttEpsilon ∧
       |a.mScaling.y - b.mScaling.y| ≤ ttEpsilon ∧
       |a.mRotation - b.mRotation| ≤ ttEpsilon) := by
  unfold STransformVecInfo.beq
  split_ifs with h1 h2 h3
  · simp only [false_iff]
    rintro ⟨hx, hy, -, -, -⟩
    rcases h1 with h1 | h1
    · exact absurd h1 (not_lt.mpr hx)
    · exact absurd h1 (not_lt.mpr hy)
  · simp only [false_iff]
    rintro ⟨-, -, hsx, hsy, -⟩
    rcases h2 with h2 | h2
    · exact absurd h2 (not_lt.mpr hsx)
    · exact absurd h2 (not_lt.mpr hsy)
  · simp only [false_iff]
    rintro ⟨-, -, -, -, hr⟩
    exact absurd h3 (not_lt.mpr hr)
  · push_neg at h1 h2 h3
    simp only [true_iff]
    exact ⟨h1.1, h1.2, h2.1, h2.2, h3⟩

/-- Claim C7.  The descriptor equality test is independent of the wrap
modes: substituting arbitrary mapU/mapV values on either side never
changes the result of operator==. -/
theorem c7_beq_ignores_wrap (a b : STransformVecInfo)
    (u1 v1 u2 v2 : aiTextureMapMode) :
    ({ a with mapU := u1, mapV := v1 }).beq { b with mapU := u2, mapV := v2 }
      = a.beq b := rfl

/-- Claim C8.  The tolerance-based equality is not transitive: descriptors
with rotations 0, 0.04 and 0.08 radians (all other fields equal) satisfy
a == b and b == c but not a == c. -/
theorem c8_beq_not_transitive :
    (infoRot 0).beq (infoRot (mkRat 4 100)) = true ∧
    (infoRot (mkRat 4 100)).beq (infoRot (mkRat 8 100)) = true ∧
    (infoRot 0).beq (infoRot (mkRat 8 100)) = false := by
  refine ⟨?_, ?_, ?_⟩ <;>
    · unfold STransformVecInfo.beq
      norm_num [infoRot, STransformVecInfo.mkDefault, aiUVTransform.mkDefault,
        ttEpsilon, Rat.mkRat_eq_divInt, abs_le, lt_abs]

/-! ### Claims about IsUntransformed (C2) -/

/-- Claim C2, counterexample.  A descriptor with scale (1,1), translation
(0,0) and rotation -1 radian is classified untransformed by the code (the
comparison `mRotation < AI_TT_ROTATION_EPSILON` is signed), although the
magnitude of its rotation, 1, is not below the claimed 0.05 tolerance: the
claimed iff fails at this input. -/
theorem c2_counterexample :
    ¬ ((infoRot (-1)).IsUntransformed = true ↔
        ((infoRot (-1)).mScaling = ⟨1, 1⟩ ∧
         (infoRot (-1)).mTranslation = ⟨0, 0⟩ ∧
         |(infoRot (-1)).mRotation| < mkRat 5 100)) := by
  intro h
  have habs := (h.mp (by decide)).2.2
  norm_num [infoRot, STransformVecInfo.mkDefault, aiUVTransform.mkDefault,
    Rat.mkRat_eq_divInt] at habs

/-- Claim C2, amended.  IsUntransformed returns true iff the scale equals
(1,1), the translation equals (0,0), and the *signed* rotation is strictly
below AI_TT_ROTATION_EPSILON (half a degree, about 0.0087266 radians, not
0.05): arbitrarily large negative rotations pass the test, while positive
rotations must stay below the half-degree epsilon. -/
theorem c2_isuntransformed_iff (info : STransformVecInfo) :
    info.IsUntransformed = true ↔
      (info.mScaling.x = 1 ∧ info.mScaling.y = 1 ∧
       info.mTranslation.x = 0 ∧ info.mTranslation.y = 0 ∧
       info.mRotation < AI_TT_ROTATION_EPSILON) := by
  unfold STransformVecInfo.IsUntransformed
  simp only [Bool.and_eq_true, decide_eq_true_eq, and_assoc]
  constructor
  · rintro ⟨h1, h2, h3, h4, h5⟩
    exact ⟨h1.symm, h2.symm, h3, h4, h5⟩
  · rintro ⟨h1, h2, h3, h4, h5⟩
    exact ⟨h1.symm, h2.symm, h3, h4, h5⟩

/-! ### Claims about GetMatrix (C5, C6, C9) -/

/-- Claim C5.  For a descriptor whose scale differs from (1,1), whose
rotation is non-zero and whose translation differs from (0,0), GetMatrix
returns exactly the product S * R * T: the pure scale matrix, times the 2D
rotation matrix (cos on the diagonal, -sin/+sin off-diagonal), times the
translation matrix with the offsets in the third column. -/
theorem c5_getmatrix_srt (cosf sinf : ℚ → ℚ) (info : STransformVecInfo)
    (hs : info.mScaling.x ≠ 1 ∨ info.mScaling.y ≠ 1)
    (hr : info.mRotation ≠ 0)
    (ht : info.mTranslation.x ≠ 0 ∨ info.mTranslation.y ≠ 0) :
    info.GetMatrix cosf sinf =
      aiMatrix3x3.mul
        (aiMatrix3x3.mul
          ⟨info.mScaling.x, 0, 0, 0, info.mScaling.y, 0, 0, 0, 1⟩
          ⟨cosf info.mRotation, -(sinf info.mRotation), 0,
           sinf info.mRotation, cosf info.mRotation, 0, 0, 0, 1⟩)
        ⟨1, 0, info.mTranslation.x, 0, 1, info.mTranslation.y, 0, 0, 1⟩ := by
  simp only [STransformVecInfo.GetMatrix]
  rw [if_pos hs, if_pos hr, if_pos ht]
  rfl

/-- Witness for C5 at a concrete descriptor and concrete cos/sin
interpretations. -/
theorem c5_getmatrix_srt_witness :
    ((infoC5.mScaling.x ≠ 1 ∨ infoC5.mScaling.y ≠ 1) ∧
     infoC5.mRotation ≠ 0 ∧
     (infoC5.mTranslation.x ≠ 0 ∨ infoC5.mTranslation.y ≠ 0)) ∧
    infoC5.GetMatrix (fun _ => 0) (fun _ => 1) =
      aiMatrix3x3.mul
        (aiMatrix3x3.mul
          ⟨2, 0, 0, 0, 3, 0, 0, 0, 1⟩
          ⟨0, -1, 0, 1, 0, 0, 0, 0, 1⟩)
        ⟨1, 0, 4, 0, 1, 5, 0, 0, 1⟩ :=
  ⟨⟨Or.inl (by decide), by decide, Or.inl (by decide)⟩,
    c5_getmatrix_srt (fun _ => 0) (fun _ => 1) infoC5
      (Or.inl (by decide)) (by decide) (Or.inl (by decide))⟩

/-- Claim C6.  GetMatrix on a descriptor with all-default transform
components — scale (1,1), rotation 0, translation (0,0) — yields exactly
the identity matrix, for every interpretation of cos and sin. -/
theorem c6_getmatrix_identity (cosf sinf : ℚ → ℚ) (info : STransformVecInfo)
    (hs : info.mScaling = ⟨1, 1⟩) (hr : info.mRotation = 0)
    (ht : info.mTranslation = ⟨0, 0⟩) :
    info.GetMatrix cosf sinf = aiMatrix3x3.mkDefault := by
  unfold STransformVecInfo.GetMatrix
  rw [hs, hr, ht]
  norm_num

/-- Witness for C6 at the default-constructed descriptor. -/
theorem c6_getmatrix_identity_witness :
    (STransformVecInfo.mkDefault.mScaling = ⟨1, 1⟩ ∧
     STransformVecInfo.mkDefault.mRotation = 0 ∧
     STransformVecInfo.mkDefault.mTranslation = ⟨0, 0⟩) ∧
    STransformVecInfo.mkDefault.GetMatrix (fun _ => 0) (fun _ => 1)
      = aiMatrix3x3.mkDefault :=
  ⟨⟨rfl, rfl, rfl⟩,
    c6_getmatrix_identity (fun _ => 0) (fun _ => 1)
      STransformVecInfo.mkDefault rfl rfl rfl⟩

/-- Claim C9.  The matrix built by GetMatrix depends only on the transform
components: substituting arbitrary values for uvIndex, mapU, mapV,
lockedPos and updateList never changes the result. -/
theorem c9_getmatrix_ignores_nontransform (a : STransformVecInfo)
    (i l : Nat) (u v : aiTextureMapMode) (ul : List TTUpdateInfo)
    (cosf sinf : ℚ → ℚ) :
    ({ a with
        uvIndex := i
        mapU := u
        mapV := v
        lockedPos := l
        updateList := ul }).GetMatrix cosf sinf
      = a.GetMatrix cosf sinf := rfl

/-! ### Claim about the default-constructed descriptor (C10) -/

/-- Claim C10.  A default-constructed STransformVecInfo has uvIndex 0, both
wrap modes Wrap, an empty update list, and lockedPos equal to the NONE
sentinel 0xeeeeeeee, which differs from the TBD sentinel 0xffffffff. -/
theorem c10_default_construction :
    STransformVecInfo.mkDefault.uvIndex = 0 ∧
    STransformVecInfo.mkDefault.mapU = aiTextureMapMode.Wrap ∧
    STransformVecInfo.mkDefault.mapV = aiTextureMapMode.Wrap ∧
    STransformVecInfo.mkDefault.updateList = [] ∧
    STransformVecInfo.mkDefault.lockedPos = AI_TT_UV_IDX_LOCK_NONE ∧
    AI_TT_UV_IDX_LOCK_NONE = 0xeeeeeeee ∧
    AI_TT_UV_IDX_LOCK_NONE ≠ AI_TT_UV_IDX_LOCK_TBD :=
  ⟨rfl, rfl, rfl, rfl, rfl, rfl, by decide⟩

theorem beq_08_00 :
    (toInfo (uvtRot (mkRat 8 100))).beq (toInfo (uvtRot 0)) = false := by
  unfold STransformVecInfo.beq
  norm_num [toInfo, uvtRot, aiUVTransform.mkDefault, ttEpsilon,
    Rat.mkRat_eq_divInt, abs_le, lt_abs]

theorem beq_04_00 :
    (toInfo (uvtRot (mkRat 4 100))).beq (toInfo (uvtRot 0)) = true := by
  unfold STransformVecInfo.beq
  norm_num [toInfo, uvtRot, aiUVTransform.mkDefault, ttEpsilon,
    Rat.mkRat_eq_divInt, abs_le, lt_abs]

theorem isId_00 : (Descriptor.mk 1 (uvtRot 0)).isId = true := by decide

theorem isId_04 : (Descriptor.mk 0 (uvtRot (mkRat 4 100))).isId = false := by decide

theorem isId_08 : (Descriptor.mk 1 (uvtRot (mkRat 8 100))).isId = false := by decide

theorem exec_bad_slots :
    (Execute cosW sinW sceneBad).slots =
      [⟨1, uvtRot 0⟩, ⟨1, uvtRot (mkRat 4 100)⟩, ⟨2, uvtRot (mkRat 8 100)⟩] := by
  simp [Execute, sceneBad, mergeGo, findCluster, descMatch, destListGo,
    patchSlots, maxPopulated, Slot.toDesc, beq_08_00, beq_04_00,
    isId_00, isId_04, isId_08]

theorem Execute_ext (cosf sinf : ℚ → ℚ) (s1 s2 : Scene)
    (hs : s1.slots = s2.slots) (hp : s1.populated = s2.populated) :
    (Execute cosf sinf s1).slots = (Execute cosf sinf s2).slots := by
  simp [Execute, hs, hp]

theorem isId_08b : (Descriptor.mk 2 (uvtRot (mkRat 8 100))).isId = false := by decide

theorem exec_bad_slots2 :
    (Execute cosW sinW (Execute cosW sinW sceneBad)).slots =
      [⟨1, uvtRot 0⟩, ⟨1, uvtRot (mkRat 4 100)⟩, ⟨1, uvtRot (mkRat 8 100)⟩] := by
  rw [Execute_ext cosW sinW (Execute cosW sinW sceneBad)
    ⟨[⟨1, uvtRot 0⟩, ⟨1, uvtRot (mkRat 4 100)⟩, ⟨2, uvtRot (mkRat 8 100)⟩], [0], []⟩
    exec_bad_slots rfl]
  simp [Execute, mergeGo, findCluster, descMatch, destListGo,
    patchSlots, maxPopulated, Slot.toDesc, beq_08_00, beq_04_00,
    isId_00, isId_04, isId_08b]

/-- Claim C4, counterexample.  Execute is not idempotent on every scene:
on the malformed scene whose slots reference an unpopulated channel, the
second run merges a slot into a different cluster (the first run's fresh
destination channel collided with a slot-referenced but unpopulated
channel) and rewrites its channel reference again. -/
theorem c4_counterexample :
    Execute cosW sinW (Execute cosW sinW sceneBad) ≠ Execute cosW sinW sceneBad := by
  intro h
  have h2 := congrArg Scene.slots h
  rw [exec_bad_slots2, exec_bad_slots] at h2
  simp at h2

theorem tt_getD_append_left {α : Type} (l1 l2 : List α) (i : Nat) (d : α)
    (h : i < l1.length) : (l1 ++ l2).getD i d = l1.getD i d := by
  induction l1 generalizing i with
  | nil => simp at h
  | cons x xs ih =>
    cases i with
    | zero => rfl
    | succ n =>
      simp only [List.cons_append, List.getD_cons_succ]
      exact ih n (Nat.lt_of_succ_lt_succ h)

theorem tt_getD_append_mid {α : Type} (l1 : List α) (x : α) (l2 : List α) (d : α) :
    (l1 ++ x :: l2).getD l1.length d = x := by
  induction l1 with
  | nil => rfl
  | cons y ys ih => simpa using ih

theorem tt_getD_mem {α : Type} (l : List α) (i : Nat) (d : α) (h : i < l.length) :
    l.getD i d ∈ l := by
  induction l generalizing i with
  | nil => simp at h
  | cons x xs ih =>
    cases i with
    | zero => simp
    | succ n =>
      simp only [List.getD_cons_succ]
      exact List.mem_cons_of_mem x (ih n (Nat.lt_of_succ_lt_succ h))

theorem le_maxPopulated (l : List Nat) (a : Nat) (h : a ∈ l) :
    a ≤ maxPopulated l := by
  induction l with
  | nil => simp at h
  | cons x xs ih =>
    show a ≤ max x (maxPopulated xs)
    rcases List.mem_cons.mp h with rfl | h'
    · exact le_max_left _ _
    · exact le_trans (ih h') (le_max_right _ _)

/-! ### findCluster and descMatch facts -/

theorem descMatch_channel (d r : Descriptor) (h : descMatch d r = true) :
    d.channel = r.channel := by
  have := (Bool.and_eq_true _ _).mp h
  exact of_decide_eq_true this.1

theorem descMatch_beq (d r : Descriptor) (h : descMatch d r = true) :
    (toInfo d.uvt).beq (toInfo r.uvt) = true :=
  ((Bool.and_eq_true _ _).mp h).2

theorem descMatch_of (d r : Descriptor) (hc : d.channel = r.channel)
    (hb : (toInfo d.uvt).beq (toInfo r.uvt) = true) : descMatch d r = true := by
  unfold descMatch
  rw [hb, decide_eq_true hc]
  rfl

theorem findCluster_some_lt (d : Descriptor) :
    ∀ (rs : List Descriptor) (j : Nat), findCluster d rs = some j → j < rs.length := by
  intro rs
  induction rs with
  | nil => intro j h; simp [findCluster] at h
  | cons r tl ih =>
    intro j h
    by_cases hm : descMatch d r = true
    · simp only [findCluster, if_pos hm, Option.some.injEq] at h
      simp only [List.length_cons]
      omega
    · simp only [findCluster, if_neg hm] at h
      cases hfc : findCluster d tl with
      | none => rw [hfc] at h; simp at h
      | some j' =>
        rw [hfc] at h
        simp only [Option.map_some', Option.some.injEq] at h
        have := ih j' hfc
        simp only [List.length_cons]
        omega

theorem findCluster_some_match (d : Descriptor) :
    ∀ (rs : List Descriptor) (j : Nat), findCluster d rs = some j →
      descMatch d (rs.getD j ddesc) = true := by
  intro rs
  induction rs with
  | nil => intro j h; simp [findCluster] at h
  | cons r tl ih =>
    intro j h
    by_cases hm : descMatch d r = true
    · simp only [findCluster, if_pos hm, Option.some.injEq] at h
      subst h
      exact hm
    · simp only [findCluster, if_neg hm] at h
      cases hfc : findCluster d tl with
      | none => rw [hfc] at h; simp at h
      | some j' =>
        rw [hfc] at h
        simp only [Option.map_some', Option.some.injEq] at h
        subst h
        simpa using ih j' hfc

theorem findCluster_none_cons (d r : Descriptor) (tl : List Descriptor)
    (h : findCluster d (r :: tl) = none) :
    descMatch d r = false ∧ findCluster d tl = none := by
  by_cases hm : descMatch d r = true
  · simp [findCluster, hm] at h
  · refine ⟨Bool.eq_false_iff.mpr hm, ?_⟩
    simp only [findCluster, if_neg hm] at h
    cases hfc : findCluster d tl with
    | none => rfl
    | some j' => rw [hfc] at h; simp at h

theorem imageFrom_length (destF : Nat → Nat) :
    ∀ (k : Nat) (rs : List Descriptor), (imageFrom destF k rs).length = rs.length := by
  intro k rs
  induction rs generalizing k with
  | nil => rfl
  | cons r tl ih => simp [imageFrom, ih]

theorem imageFrom_append_single (destF : Nat → Nat) :
    ∀ (rs : List Descriptor) (k : Nat) (d : Descriptor),
      imageFrom destF k (rs ++ [d]) =
        imageFrom destF k rs ++ [⟨destF (k + rs.length), d.uvt⟩] := by
  intro rs
  induction rs with
  | nil => intro k d; simp [imageFrom]
  | cons r tl ih =>
    intro k d
    have h2 : k + 1 + tl.length = k + (r :: tl).length := by
      simp only [List.length_cons]
      omega
    have step1 : imageFrom destF k ((r :: tl) ++ [d]) =
        (⟨destF k, r.uvt⟩ : Descriptor) :: imageFrom destF (k + 1) (tl ++ [d]) := rfl
    rw [step1, ih (k + 1) d, h2]
    rfl

/-- First-match positions survive the passage to the image list: if a
descriptor matched representative j on the first pass, its retargeted
version matches position j of the image list first, provided equal
destination values only occur at representatives sharing a source
channel. -/
theorem findCluster_image_some (destF : Nat → Nat) :
    ∀ (rs : List Descriptor) (k j : Nat) (d : Descriptor),
      findCluster d rs = some j →
      (∀ i, i < rs.length → destF (k + i) = destF (k + j) →
        (rs.getD i ddesc).channel = (rs.getD j ddesc).channel) →
      findCluster ⟨destF (k + j), d.uvt⟩ (imageFrom destF k rs) = some j := by
  intro rs
  induction rs with
  | nil => intro k j d h _; simp [findCluster] at h
  | cons r tl ih =>
    intro k j d h hcol
    by_cases hm : descMatch d r = true
    · simp only [findCluster, if_pos hm, Option.some.injEq] at h
      subst h
      have hb : descMatch ⟨destF (k + 0), d.uvt⟩ (⟨destF k, r.uvt⟩ : Descriptor) = true := by
        refine descMatch_of _ _ ?_ (descMatch_beq d r hm)
        show destF (k + 0) = destF k
        rw [Nat.add_zero]
      simp only [imageFrom, findCluster, if_pos hb]
    · simp only [findCluster, if_neg hm] at h
      cases hfc : findCluster d tl with
      | none => rw [hfc] at h; simp at h
      | some j' =>
        rw [hfc] at h
        simp only [Option.map_some', Option.some.injEq] at h
        subst h
        -- the image head cannot match the retargeted descriptor
        have hhead : descMatch ⟨destF (k + (j' + 1)), d.uvt⟩
            (⟨destF k, r.uvt⟩ : Descriptor) = false := by
          cases hx : descMatch ⟨destF (k + (j' + 1)), d.uvt⟩
              (⟨destF k, r.uvt⟩ : Descriptor) with
          | false => rfl
          | true =>
            exfalso
            have hdf : destF (k + 0) = destF (k + (j' + 1)) := by
              rw [Nat.add_zero]
              exact (descMatch_channel _ _ hx).symm
            have hch := hcol 0 (by simp) hdf
            simp only [List.getD_cons_zero, List.getD_cons_succ] at hch
            have hdch : d.channel = (tl.getD j' ddesc).channel :=
              descMatch_channel _ _ (findCluster_some_match d tl j' hfc)
            exact hm (descMatch_of d r (by rw [hdch, ← hch])
              (descMatch_beq ⟨destF (k + (j' + 1)), d.uvt⟩ ⟨destF k, r.uvt⟩ hx))
        have hstep : findCluster ⟨destF (k + (j' + 1)), d.uvt⟩
            (imageFrom destF k (r :: tl)) =
            Option.map (fun n => n + 1)
              (findCluster ⟨destF (k + (j' + 1)), d.uvt⟩ (imageFrom destF (k + 1) tl)) := by
          simp only [imageFrom, findCluster, hhead]
          simp
        have harg : k + (j' + 1) = (k + 1) + j' := by omega
        rw [hstep, harg]
        have ihres := ih (k + 1) j' d hfc ?_
        · rw [ihres]
          rfl
        · intro i hi hdf
          have h1 : (k + 1) + i = k + (i + 1) := by omega
          have h2 : (k + 1) + j' = k + (j' + 1) := by omega
          rw [h1, h2] at hdf
          have := hcol (i + 1) (by simpa using Nat.succ_lt_succ hi) hdf
          simpa using this

/-- A descriptor that matched no representative still matches none after
the passage to the image list, provided equal destination values only
occur at representatives whose source channel equals the descriptor's. -/
theorem findCluster_image_none (destF : Nat → Nat) :
    ∀ (rs : List Descriptor) (k c : Nat) (d : Descriptor),
      findCluster d rs = none →
      (∀ i, i < rs.length → destF (k + i) = c →
        (rs.getD i ddesc).channel = d.channel) →
      findCluster ⟨c, d.uvt⟩ (imageFrom destF k rs) = none := by
  intro rs
  induction rs with
  | nil => intro k c d _ _; rfl
  | cons r tl ih =>
    intro k c d h hcol
    obtain ⟨hhead, htl⟩ := findCluster_none_cons d r tl h
    have hh : descMatch ⟨c, d.uvt⟩ (⟨destF k, r.uvt⟩ : Descriptor) = false := by
      cases hx : descMatch ⟨c, d.uvt⟩ (⟨destF k, r.uvt⟩ : Descriptor) with
      | false => rfl
      | true =>
        exfalso
        have hdf : destF (k + 0) = c := by
          rw [Nat.add_zero]
          exact (descMatch_channel _ _ hx).symm
        have hch := hcol 0 (by simp) hdf
        simp only [List.getD_cons_zero] at hch
        have hdm : descMatch d r = true :=
          descMatch_of d r (by rw [hch])
            (descMatch_beq ⟨c, d.uvt⟩ ⟨destF k, r.uvt⟩ hx)
        rw [hdm] at hhead
        exact Bool.noConfusion hhead
    have hstep : findCluster ⟨c, d.uvt⟩ (imageFrom destF k (r :: tl)) =
        Option.map (fun n => n + 1)
          (findCluster ⟨c, d.uvt⟩ (imageFrom destF (k + 1) tl)) := by
      simp only [imageFrom, findCluster, hh]
      simp
    rw [hstep]
    have ihres := ih (k + 1) c d htl ?_
    · rw [ihres]
      rfl
    · intro i hi hdf
      have h1 : (k + 1) + i = k + (i + 1) := by omega
      rw [h1] at hdf
      have := hcol (i + 1) (by simpa using Nat.succ_lt_succ hi) hdf
      simpa using this

/-! ### Structure of the clustering fold -/

theorem mergeGo_grows :
    ∀ (ds rs : List Descriptor), ∃ ext, (mergeGo rs ds).1 = rs ++ ext := by
  intro ds
  induction ds with
  | nil => intro rs; exact ⟨[], by simp [mergeGo]⟩
  | cons d tl ih =>
    intro rs
    cases hfc : findCluster d rs with
    | some j =>
      obtain ⟨ext, hext⟩ := ih rs
      exact ⟨ext, by simp [mergeGo, hfc, hext]⟩
    | none =>
      obtain ⟨ext, hext⟩ := ih (rs ++ [d])
      refine ⟨[d] ++ ext, ?_⟩
      have : (mergeGo rs (d :: tl)).1 = (mergeGo (rs ++ [d]) tl).1 := by
        simp [mergeGo, hfc]
      rw [this, hext, List.append_assoc]

theorem mergeGo_reprs_from :
    ∀ (ds rs : List Descriptor) (r : Descriptor),
      r ∈ (mergeGo rs ds).1 → r ∈ rs ∨ r ∈ ds := by
  intro ds
  induction ds with
  | nil =>
    intro rs r h
    exact Or.inl (by simpa [mergeGo] using h)
  | cons d tl ih =>
    intro rs r h
    cases hfc : findCluster d rs with
    | some j =>
      rw [show (mergeGo rs (d :: tl)).1 = (mergeGo rs tl).1 from by
        simp [mergeGo, hfc]] at h
      rcases ih rs r h with h' | h'
      · exact Or.inl h'
      · exact Or.inr (List.mem_cons_of_mem d h')
    | none =>
      rw [show (mergeGo rs (d :: tl)).1 = (mergeGo (rs ++ [d]) tl).1 from by
        simp [mergeGo, hfc]] at h
      rcases ih (rs ++ [d]) r h with h' | h'
      · rcases List.mem_append.mp h' with h'' | h''
        · exact Or.inl h''
        · simp only [List.mem_singleton] at h''
          subst h''
          exact Or.inr (List.mem_cons_self _ _)
      · exact Or.inr (List.mem_cons_of_mem d h')

/-- Simulation of the clustering fold on a second pass: if equal
destination values only occur at final representatives sharing a source
channel, then clustering the retargeted descriptors against the image of
the accumulated representatives yields the image of the final
representatives and the *same* cluster assignment. -/
theorem mergeGo_retarget (destF : Nat → Nat) :
    ∀ (ds rs : List Descriptor),
      (∀ i j, i < ((mergeGo rs ds).1).length → j < ((mergeGo rs ds).1).length →
        i ≠ j → destF i = destF j →
        (((mergeGo rs ds).1).getD i ddesc).channel =
          (((mergeGo rs ds).1).getD j ddesc).channel) →
      mergeGo (imageFrom destF 0 rs) (retarget destF ds (mergeGo rs ds).2) =
        (imageFrom destF 0 (mergeGo rs ds).1, (mergeGo rs ds).2) := by
  intro ds
  induction ds with
  | nil =>
    intro rs _
    simp [mergeGo, retarget]
  | cons d tl ih =>
    intro rs hcol
    cases hfc : findCluster d rs with
    | some j =>
      have e1 : (mergeGo rs (d :: tl)).1 = (mergeGo rs tl).1 := by
        simp [mergeGo, hfc]
      have e2 : (mergeGo rs (d :: tl)).2 = j :: (mergeGo rs tl).2 := by
        simp [mergeGo, hfc]
      rw [e1] at hcol ⊢
      rw [e2]
      have hjlt : j < rs.length := findCluster_some_lt d rs j hfc
      obtain ⟨ext, hext⟩ := mergeGo_grows tl rs
      have hlen : rs.length ≤ ((mergeGo rs tl).1).length := by
        rw [hext]
        simp
      have hget : ∀ i, i < rs.length →
          ((mergeGo rs tl).1).getD i ddesc = rs.getD i ddesc := by
        intro i hi
        rw [hext]
        exact tt_getD_append_left rs ext i ddesc hi
      have hfcim : findCluster ⟨destF j, d.uvt⟩ (imageFrom destF 0 rs) = some j := by
        have H : ∀ i, i < rs.length → destF (0 + i) = destF (0 + j) →
            (rs.getD i ddesc).channel = (rs.getD j ddesc).channel := by
          intro i hi hdf
          rw [Nat.zero_add, Nat.zero_add] at hdf
          by_cases hij : i = j
          · rw [hij]
          · have := hcol i j (lt_of_lt_of_le hi hlen) (lt_of_lt_of_le hjlt hlen)
              hij hdf
            rwa [hget i hi, hget j hjlt] at this
        have := findCluster_image_some destF rs 0 j d hfc H
        rwa [Nat.zero_add] at this
      have e3 : retarget destF (d :: tl) (j :: (mergeGo rs tl).2) =
          ⟨destF j, d.uvt⟩ :: retarget destF tl (mergeGo rs tl).2 := rfl
      rw [e3]
      have e4 : mergeGo (imageFrom destF 0 rs)
          ((⟨destF j, d.uvt⟩ : Descriptor) :: retarget destF tl (mergeGo rs tl).2) =
          ((mergeGo (imageFrom destF 0 rs) (retarget destF tl (mergeGo rs tl).2)).1,
            j :: (mergeGo (imageFrom destF 0 rs) (retarget destF tl (mergeGo rs tl).2)).2) := by
        simp [mergeGo, hfcim]
      rw [e4, ih rs hcol]
    | none =>
      have e1 : (mergeGo rs (d :: tl)).1 = (mergeGo (rs ++ [d]) tl).1 := by
        simp [mergeGo, hfc]
      have e2 : (mergeGo rs (d :: tl)).2 = rs.length :: (mergeGo (rs ++ [d]) tl).2 := by
        simp [mergeGo, hfc]
      rw [e1] at hcol ⊢
      rw [e2]
      obtain ⟨ext, hext⟩ := mergeGo_grows tl (rs ++ [d])
      have hext' : (mergeGo (rs ++ [d]) tl).1 = rs ++ d :: ext := by
        rw [hext, List.append_assoc]
        rfl
      have hmlt : rs.length < ((mergeGo (rs ++ [d]) tl).1).length := by
        rw [hext']
        simp
      have hgetm : ((mergeGo (rs ++ [d]) tl).1).getD rs.length ddesc = d := by
        rw [hext']
        exact tt_getD_append_mid rs d ext ddesc
      have hget : ∀ i, i < rs.length →
          ((mergeGo (rs ++ [d]) tl).1).getD i ddesc = rs.getD i ddesc := by
        intro i hi
        rw [hext']
        exact tt_getD_append_left rs (d :: ext) i ddesc hi
      have hfcim : findCluster ⟨destF rs.length, d.uvt⟩ (imageFrom destF 0 rs) = none := by
        have H : ∀ i, i < rs.length → destF (0 + i) = destF rs.length →
            (rs.getD i ddesc).channel = d.channel := by
          intro i hi hdf
          rw [Nat.zero_add] at hdf
          have := hcol i rs.length (lt_trans hi hmlt) hmlt (Nat.ne_of_lt hi) hdf
          rwa [hget i hi, hgetm] at this
        exact findCluster_image_none destF rs 0 (destF rs.length) d hfc H
      have e3 : retarget destF (d :: tl) (rs.length :: (mergeGo (rs ++ [d]) tl).2) =
          ⟨destF rs.length, d.uvt⟩ :: retarget destF tl (mergeGo (rs ++ [d]) tl).2 := rfl
      rw [e3]
      have e4 : mergeGo (imageFrom destF 0 rs)
          ((⟨destF rs.length, d.uvt⟩ : Descriptor) ::
            retarget destF tl (mergeGo (rs ++ [d]) tl).2) =
          ((mergeGo (imageFrom destF 0 rs ++ [⟨destF rs.length, d.uvt⟩])
              (retarget destF tl (mergeGo (rs ++ [d]) tl).2)).1,
            (imageFrom destF 0 rs).length ::
              (mergeGo (imageFrom destF 0 rs ++ [⟨destF rs.length, d.uvt⟩])
                (retarget destF tl (mergeGo (rs ++ [d]) tl).2)).2) := by
        simp [mergeGo, hfcim]
      rw [e4]
      have e5 : imageFrom destF 0 rs ++ [(⟨destF rs.length, d.uvt⟩ : Descriptor)] =
          imageFrom destF 0 (rs ++ [d]) := by
        rw [imageFrom_append_single destF rs 0 d, Nat.zero_add]
      rw [e5, imageFrom_length destF 0 rs, ih (rs ++ [d]) hcol]

/-! ### Destination allocation facts -/

theorem destListGo_getD_id :
    ∀ (rs : List Descriptor) (counter j : Nat), j < rs.length →
      (rs.getD j ddesc).isId = true →
      (destListGo counter rs).getD j 0 = (rs.getD j ddesc).channel := by
  intro rs
  induction rs with
  | nil => intro counter j h _; simp at h
  | cons r tl ih =>
    intro counter j hj hid
    cases j with
    | zero =>
      simp only [List.getD_cons_zero] at hid ⊢
      simp [destListGo, hid]
    | succ n =>
      simp only [List.getD_cons_succ] at hid ⊢
      by_cases hr : r.isId = true
      · simp only [destListGo, if_pos hr, List.getD_cons_succ]
        exact ih counter n (Nat.lt_of_succ_lt_succ hj) hid
      · simp only [destListGo, if_neg hr, List.getD_cons_succ]
        exact ih (counter + 1) n (Nat.lt_of_succ_lt_succ hj) hid

theorem destListGo_getD_ge :
    ∀ (rs : List Descriptor) (counter j : Nat), j < rs.length →
      (rs.getD j ddesc).isId = false →
      counter ≤ (destListGo counter rs).getD j 0 := by
  intro rs
  induction rs with
  | nil => intro counter j h _; simp at h
  | cons r tl ih =>
    intro counter j hj hid
    cases j with
    | zero =>
      simp only [List.getD_cons_zero] at hid ⊢
      simp [destListGo, hid]
    | succ n =>
      simp only [List.getD_cons_succ] at hid ⊢
      by_cases hr : r.isId = true
      · simp only [destListGo, if_pos hr, List.getD_cons_succ]
        exact ih counter n (Nat.lt_of_succ_lt_succ hj) hid
      · simp only [destListGo, if_neg hr, List.getD_cons_succ]
        exact le_trans (Nat.le_succ counter)
          (ih (counter + 1) n (Nat.lt_of_succ_lt_succ hj) hid)

theorem destListGo_getD_lt :
    ∀ (rs : List Descriptor) (counter i j : Nat), i < j → j < rs.length →
      (rs.getD i ddesc).isId = false → (rs.getD j ddesc).isId = false →
      (destListGo counter rs).getD i 0 < (destListGo counter rs).getD j 0 := by
  intro rs
  induction rs with
  | nil => intro counter i j _ h _ _; simp at h
  | cons r tl ih =>
    intro counter i j hij hj hidi hidj
    cases j with
    | zero => omega
    | succ n =>
      simp only [List.getD_cons_succ] at hidj
      cases i with
      | zero =>
        simp only [List.getD_cons_zero] at hidi
        rw [show destListGo counter (r :: tl) = counter :: destListGo (counter + 1) tl from by
          simp [destListGo, hidi]]
        simp only [List.getD_cons_zero, List.getD_cons_succ]
        exact lt_of_lt_of_le (Nat.lt_succ_self counter)
          (destListGo_getD_ge tl (counter + 1) n (Nat.lt_of_succ_lt_succ hj) hidj)
      | succ m =>
        simp only [List.getD_cons_succ] at hidi
        by_cases hr : r.isId = true
        · simp only [destListGo, if_pos hr, List.getD_cons_succ]
          exact ih counter m n (Nat.lt_of_succ_lt_succ hij)
            (Nat.lt_of_succ_lt_succ hj) hidi hidj
        · simp only [destListGo, if_neg hr, List.getD_cons_succ]
          exact ih (counter + 1) m n (Nat.lt_of_succ_lt_succ hij)
            (Nat.lt_of_succ_lt_succ hj) hidi hidj

/-- Two distinct cluster positions can only receive the same destination
channel when both representatives are identity transforms reusing equal
source channels — provided every representative's channel lies below the
counter seed. -/
theorem destListGo_collision (rs : List Descriptor) (counter : Nat)
    (hch : ∀ r ∈ rs, r.channel < counter) :
    ∀ i j, i < rs.length → j < rs.length → i ≠ j →
      (destListGo counter rs).getD i 0 = (destListGo counter rs).getD j 0 →
      (rs.getD i ddesc).channel = (rs.getD j ddesc).channel := by
  intro i j hi hj hij heq
  cases hidi : (rs.getD i ddesc).isId with
  | true =>
    cases hidj : (rs.getD j ddesc).isId with
    | true =>
      rw [destListGo_getD_id rs counter i hi hidi,
        destListGo_getD_id rs counter j hj hidj] at heq
      exact heq
    | false =>
      exfalso
      have hge := destListGo_getD_ge rs counter j hj hidj
      rw [← heq, destListGo_getD_id rs counter i hi hidi] at hge
      exact absurd hge (not_le.mpr (hch _ (tt_getD_mem rs i ddesc hi)))
  | false =>
    cases hidj : (rs.getD j ddesc).isId with
    | true =>
      exfalso
      have hge := destListGo_getD_ge rs counter i hi hidi
      rw [heq, destListGo_getD_id rs counter j hj hidj] at hge
      exact absurd hge (not_le.mpr (hch _ (tt_getD_mem rs j ddesc hj)))
    | false =>
      exfalso
      rcases Nat.lt_or_ge i j with hlt | hge
      · exact absurd heq
          (Nat.ne_of_lt (destListGo_getD_lt rs counter i j hlt hj hidi hidj))
      · have hlt' : j < i := Nat.lt_of_le_of_ne hge (Ne.symm hij)
        exact absurd heq.symm
          (Nat.ne_of_lt (destListGo_getD_lt rs counter j i hlt' hi hidj hidi))

/-! ### The second pass sees the same allocation and matrices -/

theorem destListGo_image (destF : Nat → Nat) :
    ∀ (rs : List Descriptor) (k counter : Nat),
      (∀ j, j < rs.length → (rs.getD j ddesc).isId = true →
        destF (k + j) = (rs.getD j ddesc).channel) →
      destListGo counter (imageFrom destF k rs) = destListGo counter rs := by
  intro rs
  induction rs with
  | nil => intro k counter _; rfl
  | cons r tl ih =>
    intro k counter H
    have hhid : (Descriptor.mk (destF k) r.uvt).isId = r.isId := rfl
    by_cases hr : r.isId = true
    · have hH0 : destF (k + 0) = r.channel := H 0 (by simp) (by simpa using hr)
      simp only [imageFrom, destListGo, hhid, if_pos hr]
      rw [Nat.add_zero] at hH0
      rw [hH0, ih (k + 1) counter ?_]
      intro j hj hid
      have := H (j + 1) (by simpa using Nat.succ_lt_succ hj) (by simpa using hid)
      rw [show k + (j + 1) = (k + 1) + j from by omega] at this
      simpa using this
    · simp only [imageFrom, destListGo, hhid, if_neg hr]
      rw [ih (k + 1) (counter + 1) ?_]
      intro j hj hid
      have := H (j + 1) (by simpa using Nat.succ_lt_succ hj) (by simpa using hid)
      rw [show k + (j + 1) = (k + 1) + j from by omega] at this
      simpa using this

theorem matricesGo_image (cosf sinf : ℚ → ℚ) (destF : Nat → Nat) :
    ∀ (rs : List Descriptor) (k counter : Nat),
      matricesGo cosf sinf counter (imageFrom destF k rs) =
        matricesGo cosf sinf counter rs := by
  intro rs
  induction rs with
  | nil => intro k counter; rfl
  | cons r tl ih =>
    intro k counter
    have hhid : (Descriptor.mk (destF k) r.uvt).isId = r.isId := rfl
    by_cases hr : r.isId = true
    · simp only [imageFrom, matricesGo, hhid, if_pos hr]
      exact ih (k + 1) counter
    · simp only [imageFrom, matricesGo, hhid, if_neg hr]
      rw [ih (k + 1) (counter + 1)]

/-! ### Patching -/

theorem patchSlots_map_toDesc (destF : Nat → Nat) :
    ∀ (sls : List Slot) (js : List Nat),
      (patchSlots destF sls js).map Slot.toDesc =
        retarget destF (sls.map Slot.toDesc) js := by
  intro sls
  induction sls with
  | nil =>
    intro js
    cases js <;> rfl
  | cons sl sls ih =>
    intro js
    cases js with
    | nil => rfl
    | cons j js =>
      simp only [patchSlots, List.map_cons, retarget]
      rw [ih js]
      rfl

theorem patchSlots_patchSlots (destF : Nat → Nat) :
    ∀ (sls : List Slot) (js : List Nat),
      patchSlots destF (patchSlots destF sls js) js = patchSlots destF sls js := by
  intro sls
  induction sls with
  | nil =>
    intro js
    cases js <;> rfl
  | cons sl sls ih =>
    intro js
    cases js with
    | nil => rfl
    | cons j js =>
      simp only [patchSlots]
      rw [ih js]

theorem Scene.ext3 (a b : Scene) (h1 : a.slots = b.slots)
    (h2 : a.populated = b.populated) (h3 : a.matrices = b.matrices) : a = b := by
  cases a
  cases b
  cases h1
  cases h2
  cases h3
  rfl

/-- Claim C4, amended.  Execute is idempotent on every scene satisfying
the spec's data-model invariant that each slot's source channel indexes a
populated coordinate channel: a second run re-clusters the retargeted
descriptors into the image of the first run's clusters, allocates the very
same destination channels (the counter is seeded from the unchanged
populated set), and therefore rewrites every slot to the channel it
already has and stores the same matrices. -/
theorem c4_execute_idem (cosf sinf : ℚ → ℚ) (s : Scene)
    (hwf : ∀ sl ∈ s.slots, sl.channel ∈ s.populated) :
    Execute cosf sinf (Execute cosf sinf s) = Execute cosf sinf s := by
  set ds := s.slots.map Slot.toDesc with hdsdef
  set R := (mergeGo [] ds).1 with hRdef
  set A := (mergeGo [] ds).2 with hAdef
  set seed := maxPopulated s.populated + 1 with hseeddef
  set destF := execDestF seed R with hdestFdef
  have hch : ∀ r ∈ R, r.channel < seed := by
    intro r hr
    rcases mergeGo_reprs_from ds [] r hr with h0 | hds
    · simp at h0
    · obtain ⟨sl, hsl, rfl⟩ := List.mem_map.mp hds
      exact Nat.lt_succ_of_le (le_maxPopulated _ _ (hwf sl hsl))
  have hcol : ∀ i j, i < R.length → j < R.length → i ≠ j →
      destF i = destF j →
      (R.getD i ddesc).channel = (R.getD j ddesc).channel := by
    intro i j hi hj hij heq
    exact destListGo_collision R seed hch i j hi hj hij heq
  have hml := mergeGo_retarget destF ds [] hcol
  have hds2 : (Execute cosf sinf s).slots.map Slot.toDesc = retarget destF ds A :=
    patchSlots_map_toDesc destF s.slots A
  have hm2 : mergeGo [] ((Execute cosf sinf s).slots.map Slot.toDesc) =
      (imageFrom destF 0 R, A) := by
    rw [hds2]
    exact hml
  have hR2 : (mergeGo [] ((Execute cosf sinf s).slots.map Slot.toDesc)).1 =
      imageFrom destF 0 R := by rw [hm2]
  have hA2 : (mergeGo [] ((Execute cosf sinf s).slots.map Slot.toDesc)).2 = A := by
    rw [hm2]
  have hid : ∀ j, j < R.length → (R.getD j ddesc).isId = true →
      destF (0 + j) = (R.getD j ddesc).channel := by
    intro j hj hidj
    show (destListGo seed R).getD (0 + j) 0 = (R.getD j ddesc).channel
    rw [Nat.zero_add]
    exact destListGo_getD_id R seed j hj hidj
  have hdest2 : destListGo seed (imageFrom destF 0 R) = destListGo seed R :=
    destListGo_image destF R 0 seed hid
  have hdf2 : execDestF seed (imageFrom destF 0 R) = destF := by
    funext j
    show (destListGo seed (imageFrom destF 0 R)).getD j 0 =
      (destListGo seed R).getD j 0
    rw [hdest2]
  apply Scene.ext3
  · show patchSlots
        (execDestF seed (mergeGo [] ((Execute cosf sinf s).slots.map Slot.toDesc)).1)
        (Execute cosf sinf s).slots
        (mergeGo [] ((Execute cosf sinf s).slots.map Slot.toDesc)).2 =
      (Execute cosf sinf s).slots
    rw [hR2, hA2, hdf2]
    show patchSlots destF (patchSlots destF s.slots A) A = patchSlots destF s.slots A
    exact patchSlots_patchSlots destF s.slots A
  · rfl
  · show matricesGo cosf sinf seed
        (mergeGo [] ((Execute cosf sinf s).slots.map Slot.toDesc)).1 =
      matricesGo cosf sinf seed R
    rw [hR2]
    exact matricesGo_image cosf sinf destF R 0 seed

/-- Witness for the amended C4 at a concrete well-formed scene. -/
theorem c4_execute_idem_witness :
    (∀ sl ∈ sceneW.slots, sl.channel ∈ sceneW.populated) ∧
    Execute cosW sinW (Execute cosW sinW sceneW) = Execute cosW sinW sceneW :=
  ⟨by decide, c4_execute_idem cosW sinW sceneW (by decide)⟩
